import Mathlib

/-!
Shallow embedding of `src/ingest.py`, an e-commerce JSON-to-SQLite batch
loader, together with proofs about the claims of its specification.

The embedding models:
  * parsed JSON values (`Json`), as produced by Python's `json.load`;
  * the subset of SQLite semantics the script exercises: five tables of
    rows, NOT NULL checks, the INTEGER PRIMARY KEY uniqueness/datatype
    check, and declared foreign keys gated on an enforcement flag (which
    the script never turns on, mirroring sqlite3's default);
  * Python exceptions as an error type threaded through `Except`;
  * the connection's transaction state (`committed` vs `pending`) with
    `commit` and `rollback`;
  * the orchestrator `main` with its try/except/finally structure.

Stored values are kept as bound (`SqlVal`) values without modelling
SQLite's type-affinity text/number conversions: every value the script's
specification and claims exercise (JSON strings into TEXT columns,
integers into INTEGER columns, floats into REAL columns, NULL) is a fixed
point of those conversions. The INTEGER PRIMARY KEY column, where a
wrongly-typed value is an error rather than a silent conversion, is
modelled explicitly.
-/

namespace Ingest

/-- A parsed JSON value, as returned by Python's `json.load`. Python
distinguishes `int` and `float`; floats are modelled as rationals. -/
inductive Json where
  | null
  | bool (b : Bool)
  | int (n : Int)
  | float (q : ℚ)
  | str (s : String)
  | arr (xs : List Json)
  | obj (kvs : List (String × Json))

/-- A value stored in an SQLite cell. -/
inductive SqlVal where
  | null
  | int (n : Int)
  | real (q : ℚ)
  | text (s : String)
deriving DecidableEq

/-- The Python exceptions the script can raise: `KeyError` from required
field access, `TypeError` from `len`/subscripting a non-sequence,
`AttributeError` from `.get` on a non-dict, `sqlite3.InterfaceError` from
binding an unsupported type, and the sqlite constraint errors
(`dbError` carries the constraint's message). -/
inductive PyError where
  | keyError (k : String)
  | typeError
  | attributeError
  | interfaceError
  | dbError (msg : String)
deriving DecidableEq

/-- The five tables, in the processing order of `main`. -/
inductive TableId where
  | users
  | products
  | orders
  | order_items
  | payments
deriving DecidableEq

/-- How one INSERT column is filled from a record: a required field
(`rec['k']`, raising `KeyError` when absent) or an optional field
(`rec.get('k', default)`). -/
inductive FieldSpec where
  | req (name : String)
  | opt (name : String) (default : Json)

/-- First-match association-list lookup (JSON objects parsed by Python
have unique keys, so first-match agrees with `dict` lookup). -/
def lookupKey : List (String × Json) → String → Option Json
  | [], _ => none
  | (k, v) :: rest, key => if k = key then some v else lookupKey rest key

/-- Whether a JSON object has a key (`False` for non-objects). -/
def Json.hasKey : Json → String → Bool
  | .obj kvs, k => (lookupKey kvs k).isSome
  | _, _ => false

/-- Whether a JSON value is an object (a Python dict). -/
def isObj : Json → Bool
  | .obj _ => true
  | _ => false

/-- Python truthiness of a parsed JSON value (`if users_data:`). -/
def truthy : Json → Bool
  | .null => false
  | .bool b => b
  | .int n => n != 0
  | .float q => q != 0
  | .str s => s != ""
  | .arr xs => !xs.isEmpty
  | .obj kvs => !kvs.isEmpty

/-- Whether Python's `len` is defined on the value (`str`, `list`,
`dict`); on `None`, numbers and booleans `len` raises `TypeError`. -/
def Json.hasLen : Json → Bool
  | .str _ => true
  | .arr _ => true
  | .obj _ => true
  | _ => false

/-- Python's `len` on the values that support it. -/
def Json.len : Json → Nat
  | .str s => s.length
  | .arr xs => xs.length
  | .obj kvs => kvs.length
  | _ => 0

/-- Python iteration `for rec in data`: lists yield elements, dicts yield
their keys, strings yield one-character strings, everything else raises
`TypeError`. -/
def toIter : Json → Except PyError (List Json)
  | .arr xs => .ok xs
  | .obj kvs => .ok (kvs.map (fun kv => .str kv.1))
  | .str s => .ok (s.data.map (fun c => .str (String.singleton c)))
  | _ => .error .typeError

/-- Python subscripting `rec['k']`: `KeyError` on a dict without the key,
`TypeError` on non-dicts. -/
def getItem : Json → String → Except PyError Json
  | .obj kvs, k =>
      match lookupKey kvs k with
      | some v => .ok v
      | none => .error (.keyError k)
  | _, _ => .error .typeError

/-- Python `rec.get('k', default)`: `AttributeError` on non-dicts. -/
def jsonGet : Json → String → Json → Except PyError Json
  | .obj kvs, k, d => .ok ((lookupKey kvs k).getD d)
  | _, _, _ => .error .attributeError

/-- Evaluate one column of the row tuple from a record. -/
def getField (u : Json) : FieldSpec → Except PyError Json
  | .req k => getItem u k
  | .opt k d => jsonGet u k d

/-- Build the row tuple for one record, evaluating fields left to right
as the Python tuple expression does. -/
def buildRow (u : Json) : List FieldSpec → Except PyError (List Json)
  | [] => .ok []
  | s :: rest =>
      match getField u s with
      | .error e => .error e
      | .ok v =>
          match buildRow u rest with
          | .error e => .error e
          | .ok vs => .ok (v :: vs)

/-- Build all row tuples, records in order: the list comprehension inside
each `insert_*` function, fully evaluated before `executemany` runs. -/
def buildRows (specs : List FieldSpec) : List Json → Except PyError (List (List Json))
  | [] => .ok []
  | u :: rest =>
      match buildRow u specs with
      | .error e => .error e
      | .ok row =>
          match buildRows specs rest with
          | .error e => .error e
          | .ok rows => .ok (row :: rows)

/-- One column of a CREATE TABLE statement: name and NOT NULL flag
(the leading `id INTEGER PRIMARY KEY` column is handled separately). -/
structure Col where
  name : String
  notNull : Bool

/-- The columns of each table, from the CREATE TABLE statements of
`create_tables`; every table's first column is `id INTEGER PRIMARY KEY`. -/
def cols : TableId → List Col
  | .users =>
      [⟨"id", false⟩, ⟨"name", true⟩, ⟨"email", true⟩, ⟨"phone", false⟩,
       ⟨"address", false⟩, ⟨"created_at", false⟩]
  | .products =>
      [⟨"id", false⟩, ⟨"name", true⟩, ⟨"description", false⟩, ⟨"price", true⟩,
       ⟨"category", false⟩, ⟨"stock", false⟩, ⟨"image_url", false⟩, ⟨"created_at", false⟩]
  | .orders =>
      [⟨"id", false⟩, ⟨"user_id", true⟩, ⟨"order_date", true⟩, ⟨"total_amount", true⟩,
       ⟨"status", false⟩, ⟨"shipping_address", false⟩]
  | .order_items =>
      [⟨"id", false⟩, ⟨"order_id", true⟩, ⟨"product_id", true⟩, ⟨"quantity", true⟩,
       ⟨"price", true⟩, ⟨"subtotal", true⟩]
  | .payments =>
      [⟨"id", false⟩, ⟨"order_id", true⟩, ⟨"payment_method", false⟩, ⟨"amount", true⟩,
       ⟨"payment_status", false⟩, ⟨"transaction_id", false⟩, ⟨"payment_date", false⟩]

/-- The field rules of the five insert functions, in INSERT column order
(which coincides with table column order in every statement). Required
fields are subscripted; optional fields use `.get` with the shown
default. `payments.payment_date` uses `.get` with no default, i.e. a
`None` default. -/
def fieldSpecs : TableId → List FieldSpec
  | .users =>
      [.req "id", .req "name", .req "email", .opt "phone" (.str ""),
       .opt "address" (.str ""), .opt "created_at" (.str "")]
  | .products =>
      [.req "id", .req "name", .opt "description" (.str ""), .req "price",
       .opt "category" (.str ""), .opt "stock" (.int 0), .opt "image_url" (.str ""),
       .opt "created_at" (.str "")]
  | .orders =>
      [.req "id", .req "user_id", .req "order_date", .req "total_amount",
       .opt "status" (.str ""), .opt "shipping_address" (.str "")]
  | .order_items =>
      [.req "id", .req "order_id", .req "product_id", .req "quantity",
       .req "price", .req "subtotal"]
  | .payments =>
      [.req "id", .req "order_id", .opt "payment_method" (.str ""), .req "amount",
       .opt "payment_status" (.str ""), .opt "transaction_id" (.str ""),
       .opt "payment_date" .null]

/-- The names of the required fields of a spec list. -/
def reqNames : List FieldSpec → List String
  | [] => []
  | .req k :: rest => k :: reqNames rest
  | .opt _ _ :: rest => reqNames rest

/-- The required fields of one entity. -/
def requiredNames (t : TableId) : List String := reqNames (fieldSpecs t)

/-- Declared foreign keys: child column index (into the row, id at 0)
and parent table (all reference the parent's `id`). -/
def fks : TableId → List (Nat × TableId)
  | .users => []
  | .products => []
  | .orders => [(1, .users)]
  | .order_items => [(1, .orders), (2, .products)]
  | .payments => [(1, .orders)]

/-- Table name, as used by `verify_data`. -/
def tableName : TableId → String
  | .users => "users"
  | .products => "products"
  | .orders => "orders"
  | .order_items => "order_items"
  | .payments => "payments"

/-- Source file name for each entity, from the `json_files` dict. -/
def fileName : TableId → String
  | .users => "users.json"
  | .products => "products.json"
  | .orders => "orders.json"
  | .order_items => "order_items.json"
  | .payments => "payments.json"

/-- A stored row. -/
abbrev Row := List SqlVal

/-- The database: the five tables, each a list of rows in insert order. -/
structure DB where
  users : List Row
  products : List Row
  orders : List Row
  order_items : List Row
  payments : List Row
deriving DecidableEq

def emptyDB : DB := ⟨[], [], [], [], []⟩

def DB.getTable (db : DB) : TableId → List Row
  | .users => db.users
  | .products => db.products
  | .orders => db.orders
  | .order_items => db.order_items
  | .payments => db.payments

def DB.setTable (db : DB) (t : TableId) (x : List Row) : DB :=
  match t with
  | .users => { db with users := x }
  | .products => { db with products := x }
  | .orders => { db with orders := x }
  | .order_items => { db with order_items := x }
  | .payments => { db with payments := x }

/-- Binding a Python value as an SQL parameter: `None`, `bool` (as 0/1,
since Python bool is an int), `int`, `float` and `str` are supported;
lists and dicts raise `sqlite3.InterfaceError`. -/
def bindVal : Json → Except PyError SqlVal
  | .null => .ok .null
  | .bool b => .ok (.int (if b then 1 else 0))
  | .int n => .ok (.int n)
  | .float q => .ok (.real q)
  | .str s => .ok (.text s)
  | .arr _ => .error .interfaceError
  | .obj _ => .error .interfaceError

/-- Bind a whole row of parameters, left to right. -/
def bindAll : List Json → Except PyError (List SqlVal)
  | [] => .ok []
  | j :: rest =>
      match bindVal j with
      | .error e => .error e
      | .ok v =>
          match bindAll rest with
          | .error e => .error e
          | .ok vs => .ok (v :: vs)

/-- INTEGER-affinity coercion for the `id INTEGER PRIMARY KEY` column:
integers pass, integral floats and integral text convert, anything else
is a datatype mismatch. -/
def intKey : SqlVal → Option Int
  | .int n => some n
  | .real q => if q.den = 1 then some q.num else none
  | .text s => s.toInt?
  | .null => none

/-- The integer primary keys present in a table (the first cell of each
row; stored rows always hold an integer there). -/
def tableIds (tbl : List Row) : List Int :=
  tbl.filterMap (fun row =>
    match row.head? with
    | some (.int n) => some n
    | _ => none)

def hasId (tbl : List Row) (n : Int) : Bool := decide (n ∈ tableIds tbl)

/-- The rowid SQLite assigns when `id` is inserted as NULL. -/
def nextRowId (tbl : List Row) : Int := (tableIds tbl).foldl max 0 + 1

/-- Resolve the value inserted into the INTEGER PRIMARY KEY column:
NULL autoassigns the next rowid, otherwise INTEGER affinity must apply. -/
def idVal (tbl : List Row) : SqlVal → Except PyError Int
  | .null => .ok (nextRowId tbl)
  | v =>
      match intKey v with
      | some n => .ok n
      | none => .error (.dbError "datatype mismatch")

/-- NOT NULL check over the non-id columns. -/
def notNullViolation (t : TableId) (rest : List SqlVal) : Bool :=
  (((cols t).drop 1).zip rest).any (fun cv => cv.1.notNull && cv.2 matches .null)

/-- Foreign-key check for one row, gated on the connection's enforcement
flag (SQLite only checks declared foreign keys when `PRAGMA foreign_keys`
is on; the script never issues that pragma). -/
def fkViolation (fk : Bool) (db : DB) (t : TableId) (row : Row) : Bool :=
  fk && (fks t).any (fun p =>
    match row.get? p.1 with
    | some (.int n) => !hasId (db.getTable p.2) n
    | some .null => false
    | _ => true)

/-- Execute one INSERT of the prepared statement: bind the parameters,
resolve the primary key, check uniqueness, NOT NULL and (if enforced)
foreign keys, then append the row. -/
def insertOne (fk : Bool) (db : DB) (t : TableId) (row : List Json) : Except PyError DB :=
  match bindAll row with
  | .error e => .error e
  | .ok [] => .error (.dbError "wrong parameter count")
  | .ok (v0 :: rest) =>
      if (v0 :: rest : List SqlVal).length = (cols t).length then
        match idVal (db.getTable t) v0 with
        | .error e => .error e
        | .ok n =>
            if hasId (db.getTable t) n then
              .error (.dbError "UNIQUE constraint failed")
            else if notNullViolation t rest then
              .error (.dbError "NOT NULL constraint failed")
            else if fkViolation fk db t (SqlVal.int n :: rest) then
              .error (.dbError "FOREIGN KEY constraint failed")
            else
              .ok (db.setTable t (db.getTable t ++ [SqlVal.int n :: rest]))
      else .error (.dbError "wrong parameter count")

/-- `cursor.executemany`: execute the statement once per row, stopping at
the first failure; rows inserted before the failure stay in the open
(uncommitted) transaction, which the error value carries. -/
def executemany (fk : Bool) (db : DB) (t : TableId) :
    List (List Json) → Except (PyError × DB) DB
  | [] => .ok db
  | row :: rest =>
      match insertOne fk db t row with
      | .error e => .error (e, db)
      | .ok db2 => executemany fk db2 t rest

/-- The sqlite3 connection: the committed (on-disk) state, the pending
state seen by the connection's own cursors, and the foreign-key
enforcement flag (off unless `PRAGMA foreign_keys = ON` is issued). -/
structure Conn where
  committed : DB
  pending : DB
  fkEnforced : Bool
deriving DecidableEq

def Conn.commit (c : Conn) : Conn := { c with committed := c.pending }

def Conn.rollback (c : Conn) : Conn := { c with pending := c.committed }

/-- Common body of the five `insert_*` functions: return early when the
data is falsy, evaluate the full list comprehension (so a `KeyError`
fires before any row is executed), run `executemany`, then commit. -/
def insertEntity (t : TableId) (conn : Conn) (data : Json) :
    Except (PyError × Conn) Conn :=
  if truthy data = false then .ok conn
  else
    match toIter data with
    | .error e => .error (e, conn)
    | .ok items =>
        match buildRows (fieldSpecs t) items with
        | .error e => .error (e, conn)
        | .ok rows =>
            match executemany conn.fkEnforced conn.pending t rows with
            | .error (e, db) => .error (e, { conn with pending := db })
            | .ok db => .ok (Conn.commit { conn with pending := db })

def insert_users (conn : Conn) (users_data : Json) : Except (PyError × Conn) Conn :=
  insertEntity .users conn users_data

def insert_products (conn : Conn) (products_data : Json) : Except (PyError × Conn) Conn :=
  insertEntity .products conn products_data

def insert_orders (conn : Conn) (orders_data : Json) : Except (PyError × Conn) Conn :=
  insertEntity .orders conn orders_data

def insert_order_items (conn : Conn) (order_items_data : Json) : Except (PyError × Conn) Conn :=
  insertEntity .order_items conn order_items_data

def insert_payments (conn : Conn) (payments_data : Json) : Except (PyError × Conn) Conn :=
  insertEntity .payments conn payments_data

/-- Dispatch to the insert function for a table. -/
def insertFn : TableId → Conn → Json → Except (PyError × Conn) Conn
  | .users => insert_users
  | .products => insert_products
  | .orders => insert_orders
  | .order_items => insert_order_items
  | .payments => insert_payments

/-- The state a source file can be in. -/
inductive FileState where
  | missing
  | malformed
  | content (j : Json)

/-- `load_json_file`: read and parse a file. A missing file or malformed
JSON is caught, reported and degraded to `None`; the `len(data)` in the
success report is outside both handlers, so a parsed value without a
length raises an uncaught `TypeError`. Returns the value handed to the
caller together with the lines printed. -/
def load_json_file (file_path : String) (fs : FileState) :
    Except PyError (Option Json × List String) :=
  match fs with
  | .missing => .ok (none, ["Error: File " ++ file_path ++ " not found!"])
  | .malformed => .ok (none, ["Error: Invalid JSON in " ++ file_path])
  | .content j =>
      if j.hasLen then
        .ok (some j, ["Loaded " ++ toString j.len ++ " records from " ++ file_path])
      else .error .typeError

/-- The five input files of one run. -/
structure Inputs where
  users : FileState
  products : FileState
  orders : FileState
  order_items : FileState
  payments : FileState

def Inputs.file (inp : Inputs) : TableId → FileState
  | .users => inp.users
  | .products => inp.products
  | .orders => inp.orders
  | .order_items => inp.order_items
  | .payments => inp.payments

/-- `create_database`: remove any pre-existing database file at the path,
then connect; the fresh connection starts on an empty database with
foreign-key enforcement off (the sqlite3 default). -/
def create_database (existing : Option DB) : Conn :=
  match existing with
  | some _ => { committed := emptyDB, pending := emptyDB, fkEnforced := false }
  | none => { committed := emptyDB, pending := emptyDB, fkEnforced := false }

/-- `create_tables`: issue the five CREATE TABLE statements and commit.
The schema is static in the model, so only the commit is visible. -/
def create_tables (conn : Conn) : Conn := Conn.commit conn

/-- The five tables in processing (and verification) order. -/
def tablesOrder : List TableId :=
  [.users, .products, .orders, .order_items, .payments]

/-- `verify_data`: SELECT COUNT(*) from each table, reported in the fixed
order; the cursor sees the connection's pending state. -/
def verify_data (conn : Conn) : List (String × Nat) :=
  tablesOrder.map (fun t => (tableName t, (conn.pending.getTable t).length))

/-- One load-and-insert block of `main`: load the file, and when the
result is truthy hand it to the entity's insert function. -/
def step (t : TableId) (conn : Conn) (fs : FileState) : Except (PyError × Conn) Conn :=
  match load_json_file (fileName t) fs with
  | .error e => .error (e, conn)
  | .ok (none, _) => .ok conn
  | .ok (some d, _) => if truthy d then insertFn t conn d else .ok conn

/-- The body of `main`'s try block: create the tables, run the five
load-and-insert blocks in dependency order, then verify. -/
def mainTry (conn : Conn) (inp : Inputs) :
    Except (PyError × Conn) (Conn × List (String × Nat)) :=
  match step .users (create_tables conn) inp.users with
  | .error e => .error e
  | .ok c1 =>
      match step .products c1 inp.products with
      | .error e => .error e
      | .ok c2 =>
          match step .orders c2 inp.orders with
          | .error e => .error e
          | .ok c3 =>
              match step .order_items c3 inp.order_items with
              | .error e => .error e
              | .ok c4 =>
                  match step .payments c4 inp.payments with
                  | .error e => .error e
                  | .ok c5 => .ok (c5, verify_data c5)

/-- The observable outcome of one run: the database file left on disk
after `conn.close()` (closing without committing discards pending
changes), the verification report when reached, the propagated exception
when one occurred, the connection state at close, and whether the
connection was closed. -/
structure RunResult where
  store : DB
  report : Option (List (String × Nat))
  err : Option PyError
  finalConn : Conn
  closed : Bool
deriving DecidableEq

/-- `main`: create the database, run the try block; on an exception roll
back and re-raise; in all cases close the connection. -/
def main (inp : Inputs) (existing : Option DB) : RunResult :=
  let conn := create_database existing
  match mainTry conn inp with
  | .ok (c, rep) =>
      { store := c.committed, report := some rep, err := none,
        finalConn := c, closed := true }
  | .error (e, c) =>
      let c2 := Conn.rollback c
      { store := c2.committed, report := none, err := some e,
        finalConn := c2, closed := true }

/-! ## Well-formedness predicates and expected results -/

/-- The value one field contributes to the row of an object record,
written as a total function: required fields read the key (the absent
case is irrelevant under the predicates that use this), optional fields
fall back to their default. -/
def fieldValD (u : Json) (s : FieldSpec) : Json :=
  match u, s with
  | .obj kvs, .req k => (lookupKey kvs k).getD .null
  | .obj kvs, .opt k d => (lookupKey kvs k).getD d
  | _, .req _ => .null
  | _, .opt _ d => d

/-- The row tuple an object record with all required fields produces. -/
def builtRow (t : TableId) (u : Json) : List Json :=
  (fieldSpecs t).map (fieldValD u)

/-- The stored form of a row whose parameters all bind and whose first
cell is integer-compatible. -/
def storedRow (row : List Json) : Row :=
  match bindAll row with
  | .ok (v0 :: rest) => SqlVal.int ((intKey v0).getD 0) :: rest
  | _ => []

/-- The primary key a row inserts, read from its first cell. -/
def rowId (row : List Json) : Int :=
  match row.head? with
  | some j =>
      match bindVal j with
      | .ok v => (intKey v).getD 0
      | .error _ => 0
  | none => 0

/-- The primary key carried by a record's `id` field. -/
def recIdD (u : Json) : Int :=
  match u with
  | .obj kvs =>
      match lookupKey kvs "id" with
      | some v =>
          match bindVal v with
          | .ok sv => (intKey sv).getD 0
          | .error _ => 0
      | none => 0
  | _ => 0

/-- All elements pairwise distinct. -/
def allDiffInt : List Int → Bool
  | [] => true
  | x :: xs => !decide (x ∈ xs) && allDiffInt xs

/-- A row tuple that the table accepts: all parameters bind, the arity
matches, the primary-key cell is a non-null integer-compatible value and
no NOT NULL column holds NULL. -/
def rowOKb (t : TableId) (row : List Json) : Bool :=
  match bindAll row with
  | .error _ => false
  | .ok [] => false
  | .ok (v0 :: rest) =>
      ((v0 :: rest : List SqlVal).length == (cols t).length)
        && (intKey v0).isSome
        && !notNullViolation t rest

/-- A record the table's loader inserts successfully (key distinctness
aside): a JSON object with unique keys, all required fields present, and
an acceptable row tuple. -/
def recordOK (t : TableId) (u : Json) : Bool :=
  match u with
  | .obj kvs =>
      decide (kvs.map Prod.fst).Nodup
        && (requiredNames t).all (fun k => (lookupKey kvs k).isSome)
        && rowOKb t (builtRow t u)
  | _ => false

/-- A record list the loader inserts in full: all records acceptable and
their primary keys pairwise distinct. -/
def goodRecords (t : TableId) (rs : List Json) : Bool :=
  rs.all (recordOK t) && allDiffInt (rs.map recIdD)

/-- The records a file contributes to its table: none unless it parses
as a JSON array. -/
def fileRecords : FileState → List Json
  | .content (.arr rs) => rs
  | _ => []

/-- A file state `main` handles without aborting: missing, malformed, or
a fully insertable JSON array. -/
def fileOK (t : TableId) : FileState → Bool
  | .missing => true
  | .malformed => true
  | .content (.arr rs) => goodRecords t rs
  | .content _ => false

/-- The stored row of one record. -/
def expectedRow (t : TableId) (u : Json) : Row :=
  storedRow (builtRow t u)

/-- The well-formedness the specification's row-count property quantifies
over, strengthened to what insertion actually requires: every file is
present and parses as an array of acceptable records with distinct ids. -/
def wellFormedInputs (inp : Inputs) : Bool :=
  tablesOrder.all (fun t =>
    match inp.file t with
    | .content (.arr rs) => goodRecords t rs
    | _ => false)

/-- The hypotheses of the specification's row-count property exactly as
the claim states them: every file is present, parses as a JSON array and
every record contains all of the entity's required fields. -/
def claimPresentWithRequired (inp : Inputs) : Bool :=
  tablesOrder.all (fun t =>
    match inp.file t with
    | .content (.arr rs) => rs.all (fun u => (requiredNames t).all (u.hasKey ·))
    | _ => false)

/-- The conclusion of the row-count property: after the run, each table's
row count equals the number of records in its source file. -/
def countsMatch (inp : Inputs) : Bool :=
  tablesOrder.all (fun t =>
    ((main inp none).store.getTable t).length == (fileRecords (inp.file t)).length)

/-! ## Basic lemmas about the database state -/

theorem getTable_setTable (db : DB) (t : TableId) (x : List Row) :
    (db.setTable t x).getTable t = x := by
  cases t <;> rfl

theorem setTable_setTable (db : DB) (t : TableId) (x y : List Row) :
    (db.setTable t x).setTable t y = db.setTable t y := by
  cases t <;> rfl

theorem setTable_self (db : DB) (t : TableId) :
    db.setTable t (db.getTable t) = db := by
  cases t <;> rfl

theorem tableIds_append (a b : List Row) :
    tableIds (a ++ b) = tableIds a ++ tableIds b := by
  simp [tableIds]

theorem tableIds_int_cons (n : Int) (rest : Row) (tbl : List Row) :
    tableIds ((SqlVal.int n :: rest) :: tbl) = n :: tableIds tbl := by
  simp [tableIds]

/-! ## Lemmas about row construction -/

theorem mem_reqNames {f : String} :
    ∀ {specs : List FieldSpec}, f ∈ reqNames specs ↔ FieldSpec.req f ∈ specs := by
  intro specs
  induction specs with
  | nil => simp [reqNames]
  | cons s rest ih =>
      cases s with
      | req k => simp [reqNames, ih, List.mem_cons]
      | opt k d => simp [reqNames, ih, List.mem_cons]

theorem buildRow_ok {kvs : List (String × Json)} :
    ∀ {specs : List FieldSpec},
      (∀ k, FieldSpec.req k ∈ specs → (lookupKey kvs k).isSome = true) →
      buildRow (.obj kvs) specs = .ok (specs.map (fieldValD (.obj kvs))) := by
  intro specs
  induction specs with
  | nil => intro _; rfl
  | cons s rest ih =>
      intro h
      cases s with
      | req k =>
          have hk := h k (by simp)
          cases hl : lookupKey kvs k with
          | none => rw [hl] at hk; simp at hk
          | some v =>
              simp only [buildRow, getField, getItem, hl]
              rw [ih (fun k' hk' => h k' (List.mem_cons_of_mem _ hk'))]
              simp [fieldValD, hl]
      | opt k d =>
          simp only [buildRow, getField, jsonGet]
          rw [ih (fun k' hk' => h k' (List.mem_cons_of_mem _ hk'))]
          simp [fieldValD]

theorem buildRow_missing {kvs : List (String × Json)} {f : String} :
    ∀ {specs : List FieldSpec}, FieldSpec.req f ∈ specs → lookupKey kvs f = none →
      ∃ k, buildRow (.obj kvs) specs = .error (.keyError k) := by
  intro specs
  induction specs with
  | nil => intro h _; simp at h
  | cons s rest ih =>
      intro hmem hnone
      cases s with
      | req k =>
          cases hl : lookupKey kvs k with
          | none => exact ⟨k, by simp [buildRow, getField, getItem, hl]⟩
          | some v =>
              have hf : FieldSpec.req f ∈ rest := by
                rcases List.mem_cons.mp hmem with h | h
                · injection h with h2
                  rw [h2] at hnone
                  rw [hnone] at hl
                  cases hl
                · exact h
              obtain ⟨k', hk'⟩ := ih hf hnone
              exact ⟨k', by simp [buildRow, getField, getItem, hl, hk']⟩
      | opt k d =>
          have hf : FieldSpec.req f ∈ rest := by
            rcases List.mem_cons.mp hmem with h | h
            · cases h
            · exact h
          obtain ⟨k', hk'⟩ := ih hf hnone
          exact ⟨k', by simp [buildRow, getField, jsonGet, hk']⟩

theorem buildRows_ok {specs : List FieldSpec} :
    ∀ {rs : List Json},
      (∀ u ∈ rs, ∃ kvs, u = Json.obj kvs ∧
        ∀ k, FieldSpec.req k ∈ specs → (lookupKey kvs k).isSome = true) →
      buildRows specs rs = .ok (rs.map (fun u => specs.map (fieldValD u))) := by
  intro rs
  induction rs with
  | nil => intro _; rfl
  | cons u rest ih =>
      intro h
      obtain ⟨kvs, rfl, hkvs⟩ := h u (by simp)
      simp only [buildRows, buildRow_ok hkvs]
      rw [ih (fun u' hu' => h u' (List.mem_cons_of_mem _ hu'))]
      simp

theorem buildRows_missing {specs : List FieldSpec} :
    ∀ {rs : List Json},
      (∀ u ∈ rs, isObj u = true) →
      (∃ u ∈ rs, ∃ f ∈ reqNames specs, u.hasKey f = false) →
      ∃ k, buildRows specs rs = .error (.keyError k) := by
  intro rs
  induction rs with
  | nil => intro _ h; simp at h
  | cons u rest ih =>
      intro hobj hmiss
      obtain ⟨kvs, rfl⟩ : ∃ kvs, u = Json.obj kvs := by
        have := hobj u (by simp)
        cases u <;> simp [isObj] at this ⊢
      by_cases hall : ∀ k, FieldSpec.req k ∈ specs → (lookupKey kvs k).isSome = true
      · -- the head record is complete, so a later record must be missing a field
        have hrest : ∃ u ∈ rest, ∃ f ∈ reqNames specs, u.hasKey f = false := by
          obtain ⟨u', hu', f, hf, hmissf⟩ := hmiss
          rcases List.mem_cons.mp hu' with h | h
          · subst h
            have := hall f (mem_reqNames.mp hf)
            simp [Json.hasKey] at hmissf
            rw [hmissf] at this
            simp at this
          · exact ⟨u', h, f, hf, hmissf⟩
        obtain ⟨k', hk'⟩ := ih (fun u' hu' => hobj u' (List.mem_cons_of_mem _ hu')) hrest
        exact ⟨k', by simp [buildRows, buildRow_ok hall, hk']⟩
      · push_neg at hall
        obtain ⟨f, hf, hnone⟩ := hall
        have hnone' : lookupKey kvs f = none := by
          cases h : lookupKey kvs f with
          | none => rfl
          | some v => rw [h] at hnone; simp at hnone
        obtain ⟨k', hk'⟩ := buildRow_missing hf hnone'
        exact ⟨k', by simp [buildRows, hk']⟩

/-! ## Lemmas about the insert engine -/

theorem tableIds_nil : tableIds [] = [] := rfl

theorem rowOK_components {t : TableId} {row : List Json} (h : rowOKb t row = true) :
    ∃ v0 rest n, bindAll row = .ok (v0 :: rest) ∧
      (v0 :: rest : List SqlVal).length = (cols t).length ∧
      intKey v0 = some n ∧ notNullViolation t rest = false ∧
      storedRow row = SqlVal.int n :: rest ∧ rowId row = n := by
  cases row with
  | nil => simp [rowOKb, bindAll] at h
  | cons j js =>
      cases hj : bindVal j with
      | error e => simp [rowOKb, bindAll, hj] at h
      | ok v0 =>
          cases hjs : bindAll js with
          | error e => simp [rowOKb, bindAll, hj, hjs] at h
          | ok rest =>
              have hb : bindAll (j :: js) = .ok (v0 :: rest) := by simp [bindAll, hj, hjs]
              simp only [rowOKb, hb] at h
              rw [Bool.and_eq_true, Bool.and_eq_true] at h
              obtain ⟨⟨hlen, hsome⟩, hnn⟩ := h
              cases hk : intKey v0 with
              | none => rw [hk] at hsome; simp at hsome
              | some n =>
                  refine ⟨v0, rest, n, hb, ?_, hk, ?_, ?_, ?_⟩
                  · simpa using hlen
                  · simpa using hnn
                  · simp [storedRow, hb, hk]
                  · simp [rowId, hj, hk]

theorem insertOne_ok {t : TableId} {row : List Json} (db : DB)
    (h : rowOKb t row = true)
    (hfresh : hasId (db.getTable t) (rowId row) = false) :
    insertOne false db t row =
      .ok (db.setTable t (db.getTable t ++ [storedRow row])) := by
  obtain ⟨v0, rest, n, hb, hlen, hk, hnn, hst, hid⟩ := rowOK_components h
  rw [hid] at hfresh
  have hidv : idVal (db.getTable t) v0 = .ok n := by
    cases v0 with
    | null => simp [intKey] at hk
    | int m => simp [idVal, hk]
    | real q => simp [idVal, hk]
    | text s => simp [idVal, hk]
  rw [hst]
  simp [insertOne, hb, hlen, hidv, hfresh, hnn, fkViolation]

theorem executemany_ok {t : TableId} :
    ∀ {rows : List (List Json)} (db : DB),
      (∀ r ∈ rows, rowOKb t r = true) →
      allDiffInt (rows.map rowId) = true →
      (∀ r ∈ rows, hasId (db.getTable t) (rowId r) = false) →
      executemany false db t rows =
        .ok (db.setTable t (db.getTable t ++ rows.map storedRow)) := by
  intro rows
  induction rows with
  | nil =>
      intro db _ _ _
      simp [executemany, setTable_self]
  | cons r rest ih =>
      intro db hok hdiff hfresh
      have h1 := insertOne_ok db (hok r (by simp)) (hfresh r (by simp))
      have hdiff2 := hdiff
      simp only [List.map_cons, allDiffInt, Bool.and_eq_true] at hdiff2
      obtain ⟨hnotmem, hdiff'⟩ := hdiff2
      have hne : ∀ r' ∈ rest, rowId r' ≠ rowId r := by
        intro r' hr' he
        rw [Bool.not_eq_true', decide_eq_false_iff_not] at hnotmem
        exact hnotmem (by rw [← he]; exact List.mem_map_of_mem rowId hr')
      obtain ⟨v0, rest0, n, hb, hlen, hk, hnn, hst, hid⟩ := rowOK_components (hok r (by simp))
      have hfresh' : ∀ r' ∈ rest,
          hasId ((db.setTable t (db.getTable t ++ [storedRow r])).getTable t) (rowId r') = false := by
        intro r' hr'
        have h2 := hfresh r' (List.mem_cons_of_mem _ hr')
        have h3 := hne r' hr'
        rw [getTable_setTable, hst]
        simp only [hasId, tableIds_append, tableIds_int_cons, tableIds_nil,
          decide_eq_false_iff_not, List.mem_append, List.mem_cons,
          List.not_mem_nil, or_false, not_or] at h2 ⊢
        exact ⟨h2, hid ▸ h3⟩
      have ihr := ih _ (fun r' h => hok r' (List.mem_cons_of_mem _ h)) hdiff' hfresh'
      simp only [executemany, h1]
      rw [ihr, getTable_setTable, setTable_setTable, List.map_cons,
        List.append_assoc, List.singleton_append]

/-! ## Lemmas about the table loaders -/

theorem recordOK_components {t : TableId} {u : Json} (h : recordOK t u = true) :
    ∃ kvs, u = Json.obj kvs ∧
      (∀ k, FieldSpec.req k ∈ fieldSpecs t → (lookupKey kvs k).isSome = true) ∧
      rowOKb t (builtRow t u) = true := by
  cases u with
  | obj kvs =>
      simp only [recordOK] at h
      rw [Bool.and_eq_true, Bool.and_eq_true] at h
      obtain ⟨⟨_, hreq⟩, hrow⟩ := h
      refine ⟨kvs, rfl, ?_, hrow⟩
      intro k hk
      exact List.all_eq_true.mp hreq k (mem_reqNames.mpr hk)
  | null => simp [recordOK] at h
  | bool b => simp [recordOK] at h
  | int n => simp [recordOK] at h
  | float q => simp [recordOK] at h
  | str s => simp [recordOK] at h
  | arr xs => simp [recordOK] at h

theorem fieldSpecs_head (t : TableId) :
    (fieldSpecs t).head? = some (.req "id") := by
  cases t <;> rfl

theorem rowId_builtRow {t : TableId} {u : Json} (h : recordOK t u = true) :
    rowId (builtRow t u) = recIdD u := by
  obtain ⟨kvs, rfl, hreq, _⟩ := recordOK_components h
  have hid : FieldSpec.req "id" ∈ fieldSpecs t := by
    cases hspec : fieldSpecs t with
    | nil => have := fieldSpecs_head t; rw [hspec] at this; cases this
    | cons s rest =>
        have := fieldSpecs_head t
        rw [hspec] at this
        simp only [List.head?_cons, Option.some.injEq] at this
        rw [← this]
        exact List.mem_cons_self s rest
  have hsome := hreq "id" hid
  cases hl : lookupKey kvs "id" with
  | none => rw [hl] at hsome; simp at hsome
  | some v =>
      have hh : (builtRow t (Json.obj kvs)).head? =
          some (fieldValD (Json.obj kvs) (.req "id")) := by
        simp [builtRow, List.head?_map, fieldSpecs_head]
      simp only [rowId, hh, fieldValD, hl, Option.getD_some, recIdD]

theorem insertEntity_ok {t : TableId} {conn : Conn} {rs : List Json}
    (hfk : conn.fkEnforced = false)
    (hne : rs ≠ [])
    (hgood : goodRecords t rs = true)
    (hfresh : ∀ u ∈ rs, hasId (conn.pending.getTable t) (recIdD u) = false) :
    insertEntity t conn (.arr rs) =
      .ok (Conn.commit { conn with
        pending := conn.pending.setTable t
          (conn.pending.getTable t ++ rs.map (expectedRow t)) }) := by
  have htruthy : truthy (.arr rs) = true := by
    cases rs with
    | nil => exact absurd rfl hne
    | cons a l => simp [truthy]
  rw [goodRecords, Bool.and_eq_true] at hgood
  obtain ⟨hall, hdiff⟩ := hgood
  have hrec : ∀ u ∈ rs, recordOK t u = true := fun u hu => List.all_eq_true.mp hall u hu
  have hbr : buildRows (fieldSpecs t) rs =
      .ok (rs.map (fun u => (fieldSpecs t).map (fieldValD u))) :=
    buildRows_ok (fun u hu => by
      obtain ⟨kvs, rfl, hreq, _⟩ := recordOK_components (hrec u hu)
      exact ⟨kvs, rfl, hreq⟩)
  have hmapid : (rs.map (fun u => (fieldSpecs t).map (fieldValD u))).map rowId =
      rs.map recIdD := by
    rw [List.map_map]
    exact List.map_congr_left (fun u hu => rowId_builtRow (hrec u hu))
  have hex : executemany conn.fkEnforced conn.pending t
      (rs.map (fun u => (fieldSpecs t).map (fieldValD u))) =
      .ok (conn.pending.setTable t (conn.pending.getTable t ++
        (rs.map (fun u => (fieldSpecs t).map (fieldValD u))).map storedRow)) := by
    rw [hfk]
    refine executemany_ok _ ?_ ?_ ?_
    · intro r hr
      obtain ⟨u, hu, rfl⟩ := List.mem_map.mp hr
      exact (recordOK_components (hrec u hu)).choose_spec.2.2
    · rw [hmapid]; exact hdiff
    · intro r hr
      obtain ⟨u, hu, rfl⟩ := List.mem_map.mp hr
      have h' : rowId (List.map (fieldValD u) (fieldSpecs t)) = recIdD u :=
        rowId_builtRow (hrec u hu)
      rw [h']
      exact hfresh u hu
  simp only [insertEntity, htruthy, Bool.true_eq_false, if_neg, toIter, hbr, hex,
    List.map_map]
  rfl

theorem insertFn_eq (t : TableId) : insertFn t = insertEntity t := by
  cases t <;> rfl

theorem insertEntity_keyError {t : TableId} {conn : Conn} {rs : List Json}
    (hobj : ∀ u ∈ rs, isObj u = true)
    (hmiss : ∃ u ∈ rs, ∃ f ∈ requiredNames t, u.hasKey f = false) :
    ∃ k, insertEntity t conn (.arr rs) = .error (.keyError k, conn) := by
  have hne : rs ≠ [] := by
    obtain ⟨u, hu, _⟩ := hmiss
    intro h
    rw [h] at hu
    cases hu
  have htruthy : truthy (.arr rs) = true := by
    cases rs with
    | nil => exact absurd rfl hne
    | cons a l => simp [truthy]
  obtain ⟨k, hk⟩ := @buildRows_missing (fieldSpecs t) rs hobj hmiss
  exact ⟨k, by simp [insertEntity, htruthy, toIter, hk]⟩

/-! ## Lemmas about one load-and-insert block and the whole run -/

theorem step_ok {t : TableId} {db : DB} {fs : FileState}
    (hempty : db.getTable t = [])
    (hfile : fileOK t fs = true) :
    step t ⟨db, db, false⟩ fs =
      .ok ⟨db.setTable t ((fileRecords fs).map (expectedRow t)),
           db.setTable t ((fileRecords fs).map (expectedRow t)), false⟩ := by
  cases fs with
  | missing =>
      simp only [fileRecords, List.map_nil]
      rw [← hempty, setTable_self]
      rfl
  | malformed =>
      simp only [fileRecords, List.map_nil]
      rw [← hempty, setTable_self]
      rfl
  | content j =>
      cases j with
      | arr rs =>
          cases rs with
          | nil =>
              simp only [fileRecords, List.map_nil]
              rw [← hempty, setTable_self]
              simp [step, load_json_file, Json.hasLen, truthy]
          | cons u rest =>
              have hgood : goodRecords t (u :: rest) = true := by
                simpa [fileOK] using hfile
              have hfresh : ∀ u' ∈ u :: rest,
                  hasId ((⟨db, db, false⟩ : Conn).pending.getTable t) (recIdD u') = false := by
                intro u' _
                show hasId (db.getTable t) (recIdD u') = false
                rw [hempty]
                simp [hasId, tableIds_nil]
              have hi := @insertEntity_ok t ⟨db, db, false⟩ (u :: rest) rfl (by simp) hgood hfresh
              have hi2 : insertEntity t ⟨db, db, false⟩ (.arr (u :: rest)) =
                  .ok ⟨db.setTable t ((u :: rest).map (expectedRow t)),
                       db.setTable t ((u :: rest).map (expectedRow t)), false⟩ := by
                rw [hi]
                show Except.ok (Conn.commit ⟨db, db.setTable t (db.getTable t ++ _), false⟩) = _
                rw [hempty, List.nil_append]
                rfl
              simp only [step, load_json_file, Json.hasLen, truthy, List.isEmpty_cons,
                Bool.not_false, if_true, insertFn_eq, hi2]
              rfl
      | null => simp [fileOK] at hfile
      | bool b => simp [fileOK] at hfile
      | int n => simp [fileOK] at hfile
      | float q => simp [fileOK] at hfile
      | str s => simp [fileOK] at hfile
      | obj kvs => simp [fileOK] at hfile

/-- The database a run over handled files leaves behind. -/
def expectedDB (inp : Inputs) : DB :=
  ⟨(fileRecords inp.users).map (expectedRow .users),
   (fileRecords inp.products).map (expectedRow .products),
   (fileRecords inp.orders).map (expectedRow .orders),
   (fileRecords inp.order_items).map (expectedRow .order_items),
   (fileRecords inp.payments).map (expectedRow .payments)⟩

theorem main_ok {inp : Inputs} (ex : Option DB)
    (h : ∀ t, fileOK t (inp.file t) = true) :
    main inp ex =
      { store := expectedDB inp,
        report := some (tablesOrder.map (fun t =>
          (tableName t, (fileRecords (inp.file t)).length))),
        err := none,
        finalConn := ⟨expectedDB inp, expectedDB inp, false⟩,
        closed := true } := by
  have hconn : create_database ex = ⟨emptyDB, emptyDB, false⟩ := by
    cases ex <;> rfl
  have h1 : step .users ⟨emptyDB, emptyDB, false⟩ inp.users =
      .ok ⟨⟨(fileRecords inp.users).map (expectedRow .users), [], [], [], []⟩,
           ⟨(fileRecords inp.users).map (expectedRow .users), [], [], [], []⟩,
           false⟩ :=
    step_ok rfl (h .users)
  have h2 : step .products
      ⟨⟨(fileRecords inp.users).map (expectedRow .users), [], [], [], []⟩,
       ⟨(fileRecords inp.users).map (expectedRow .users), [], [], [], []⟩,
       false⟩ inp.products =
      .ok ⟨⟨(fileRecords inp.users).map (expectedRow .users),
            (fileRecords inp.products).map (expectedRow .products), [], [], []⟩,
           ⟨(fileRecords inp.users).map (expectedRow .users),
            (fileRecords inp.products).map (expectedRow .products), [], [], []⟩,
           false⟩ :=
    step_ok rfl (h .products)
  have h3 : step .orders
      ⟨⟨(fileRecords inp.users).map (expectedRow .users),
        (fileRecords inp.products).map (expectedRow .products), [], [], []⟩,
       ⟨(fileRecords inp.users).map (expectedRow .users),
        (fileRecords inp.products).map (expectedRow .products), [], [], []⟩,
       false⟩ inp.orders =
      .ok ⟨⟨(fileRecords inp.users).map (expectedRow .users),
            (fileRecords inp.products).map (expectedRow .products),
            (fileRecords inp.orders).map (expectedRow .orders), [], []⟩,
           ⟨(fileRecords inp.users).map (expectedRow .users),
            (fileRecords inp.products).map (expectedRow .products),
            (fileRecords inp.orders).map (expectedRow .orders), [], []⟩,
           false⟩ :=
    step_ok rfl (h .orders)
  have h4 : step .order_items
      ⟨⟨(fileRecords inp.users).map (expectedRow .users),
        (fileRecords inp.products).map (expectedRow .products),
        (fileRecords inp.orders).map (expectedRow .orders), [], []⟩,
       ⟨(fileRecords inp.users).map (expectedRow .users),
        (fileRecords inp.products).map (expectedRow .products),
        (fileRecords inp.orders).map (expectedRow .orders), [], []⟩,
       false⟩ inp.order_items =
      .ok ⟨⟨(fileRecords inp.users).map (expectedRow .users),
            (fileRecords inp.products).map (expectedRow .products),
            (fileRecords inp.orders).map (expectedRow .orders),
            (fileRecords inp.order_items).map (expectedRow .order_items), []⟩,
           ⟨(fileRecords inp.users).map (expectedRow .users),
            (fileRecords inp.products).map (expectedRow .products),
            (fileRecords inp.orders).map (expectedRow .orders),
            (fileRecords inp.order_items).map (expectedRow .order_items), []⟩,
           false⟩ :=
    step_ok rfl (h .order_items)
  have h5 : step .payments
      ⟨⟨(fileRecords inp.users).map (expectedRow .users),
        (fileRecords inp.products).map (expectedRow .products),
        (fileRecords inp.orders).map (expectedRow .orders),
        (fileRecords inp.order_items).map (expectedRow .order_items), []⟩,
       ⟨(fileRecords inp.users).map (expectedRow .users),
        (fileRecords inp.products).map (expectedRow .products),
        (fileRecords inp.orders).map (expectedRow .orders),
        (fileRecords inp.order_items).map (expectedRow .order_items), []⟩,
       false⟩ inp.payments =
      .ok ⟨expectedDB inp, expectedDB inp, false⟩ :=
    step_ok rfl (h .payments)
  simp only [main, hconn, mainTry, create_tables, Conn.commit, h1, h2, h3, h4, h5]
  simp [verify_data, tablesOrder, expectedDB, tableName, Inputs.file, DB.getTable,
    List.length_map]

theorem mem_tablesOrder (t : TableId) : t ∈ tablesOrder := by
  cases t <;> simp [tablesOrder]

theorem mainTry_users_error {inp : Inputs} {e : PyError} {c : Conn}
    (h : step .users ⟨emptyDB, emptyDB, false⟩ inp.users = .error (e, c)) (ex : Option DB) :
    main inp ex =
      { store := c.committed, report := none, err := some e,
        finalConn := Conn.rollback c, closed := true } := by
  have hconn : create_database ex = ⟨emptyDB, emptyDB, false⟩ := by
    cases ex <;> rfl
  simp only [main, hconn, mainTry, create_tables, Conn.commit, h]
  rfl

theorem bindAll_ok_get :
    ∀ {js : List Json} {vs : List SqlVal}, bindAll js = .ok vs →
      ∀ i j, js.get? i = some j → ∃ v, bindVal j = .ok v ∧ vs.get? i = some v := by
  intro js
  induction js with
  | nil =>
      intro vs h i j hj
      simp at hj
  | cons a l ih =>
      intro vs h i j hj
      cases ha : bindVal a with
      | error e =>
          simp only [bindAll, ha] at h
          exact Except.noConfusion h
      | ok v =>
          cases hl : bindAll l with
          | error e =>
              simp only [bindAll, ha, hl] at h
              exact Except.noConfusion h
          | ok ws =>
              simp only [bindAll, ha, hl, Except.ok.injEq] at h
              subst h
              cases i with
              | zero =>
                  simp only [List.get?_cons_zero, Option.some.injEq] at hj
                  subst hj
                  exact ⟨v, ha, rfl⟩
              | succ i' =>
                  simp only [List.get?_cons_succ] at hj ⊢
                  exact ih hl i' j hj

/-! ## Concrete inputs used by the claim theorems -/

/-- An input set that is present, parses as arrays, and has every
required field, yet repeats a primary key in `users.json`. -/
def c1BadInput : Inputs :=
  { users := .content (.arr
      [.obj [("id", .int 1), ("name", .str "a"), ("email", .str "b")],
       .obj [("id", .int 1), ("name", .str "c"), ("email", .str "d")]]),
    products := .content (.arr []),
    orders := .content (.arr []),
    order_items := .content (.arr []),
    payments := .content (.arr []) }

/-- A fully well-formed input set. -/
def c1GoodInput : Inputs :=
  { users := .content (.arr
      [.obj [("id", .int 1), ("name", .str "Alice"), ("email", .str "alice@x.com")],
       .obj [("id", .int 2), ("name", .str "Bob"), ("email", .str "bob@x.com"),
             ("phone", .str "555")]]),
    products := .content (.arr
      [.obj [("id", .int 1), ("name", .str "Widget"), ("price", .float (mkRat 999 100))]]),
    orders := .content (.arr
      [.obj [("id", .int 1), ("user_id", .int 1), ("order_date", .str "2024-01-01"),
             ("total_amount", .float (mkRat 999 100))]]),
    order_items := .content (.arr
      [.obj [("id", .int 1), ("order_id", .int 1), ("product_id", .int 1),
             ("quantity", .int 1), ("price", .float (mkRat 999 100)),
             ("subtotal", .float (mkRat 999 100))]]),
    payments := .content (.arr []) }

/-- users.json whose only record lacks the required `email` field. -/
def c2Input : Inputs :=
  { users := .content (.arr [.obj [("id", .int 1), ("name", .str "a")]]),
    products := .content (.arr []), orders := .content (.arr []),
    order_items := .content (.arr []), payments := .content (.arr []) }

/-- Four valid files with `payments.json` absent from disk. -/
def c3Input : Inputs :=
  { users := .content (.arr
      [.obj [("id", .int 1), ("name", .str "A"), ("email", .str "a@x.com")]]),
    products := .content (.arr
      [.obj [("id", .int 1), ("name", .str "Widget"), ("price", .float (mkRat 999 100))]]),
    orders := .content (.arr []),
    order_items := .content (.arr []),
    payments := .missing }

/-- A product record omitting every optional field, `stock` included. -/
def c4Record : Json :=
  .obj [("id", .int 7), ("name", .str "Widget"), ("price", .int 5)]

/-- The exact end-to-end example of the specification. -/
def c5Input : Inputs :=
  { users := .content (.arr
      [.obj [("id", .int 1), ("name", .str "A"), ("email", .str "a@x.com")]]),
    products := .content (.arr
      [.obj [("id", .int 1), ("name", .str "Widget"), ("price", .float (mkRat 999 100))]]),
    orders := .content (.arr []),
    order_items := .content (.arr []),
    payments := .content (.arr []) }

/-- users.json parsing to a bare number, so its `len` raises. -/
def c7Input : Inputs :=
  { users := .content (.int 0), products := .content (.arr []),
    orders := .content (.arr []), order_items := .content (.arr []),
    payments := .content (.arr []) }

/-- An order_items record referencing order 99 and product 99, neither of
which exists. -/
def c9Record : Json :=
  .obj [("id", .int 1), ("order_id", .int 99), ("product_id", .int 99),
        ("quantity", .int 1), ("price", .int 5), ("subtotal", .int 5)]

def c9Row : List Json := [.int 1, .int 99, .int 99, .int 1, .int 5, .int 5]

def c9Input : Inputs :=
  { users := .content (.arr []), products := .content (.arr []),
    orders := .content (.arr []), order_items := .content (.arr [c9Record]),
    payments := .content (.arr []) }

/-- users.json parsing to a bare number. -/
def c10Input : Inputs :=
  { users := .content (.int 5), products := .content (.arr []),
    orders := .content (.arr []), order_items := .content (.arr []),
    payments := .content (.arr []) }

/-! ## The claims -/

/-- C6: for every fixed input set the run's outcome, the final store
included, is independent of any pre-existing store file — the initializer
deletes it before creating a fresh one — so running the tool twice in
succession (the second run starting from the first run's store) yields an
identical final store state each time. -/
theorem claim_C6 :
    (∀ (inp : Inputs) (s1 s2 : Option DB), main inp s1 = main inp s2) ∧
    (∀ (inp : Inputs) (s : Option DB),
      main inp (some ((main inp s).store)) = main inp s) := by
  have h : ∀ (inp : Inputs) (s1 s2 : Option DB), main inp s1 = main inp s2 := by
    intro inp s1 s2
    cases s1 <;> cases s2 <;> rfl
  exact ⟨h, fun inp s => h inp _ s⟩

/-- C7: every run closes the store connection, and every run that
propagates an error has rolled the connection back (pending state equals
committed state at close) and reaches no verification report. -/
theorem claim_C7 (inp : Inputs) (ex : Option DB) :
    (main inp ex).closed = true ∧
    ((main inp ex).err.isSome = true →
      (main inp ex).finalConn.pending = (main inp ex).finalConn.committed ∧
      (main inp ex).report = none) := by
  cases h : mainTry (create_database ex) inp with
  | ok p => simp [main, h]
  | error ec =>
      obtain ⟨e, c⟩ := ec
      simp [main, h, Conn.rollback]

/-- C7 witness: the guarantees at a concrete failing run. -/
theorem claim_C7_witness :
    (main c7Input none).finalConn.pending = (main c7Input none).finalConn.committed ∧
    (main c7Input none).report = none :=
  (claim_C7 c7Input none).2 (by decide)

/-- C8: on a readable file that parses successfully, the source loader
hands the parsed value back to the caller and reports the value together
with its length in its success message. -/
theorem claim_C8 (p : String) (j : Json) (h : j.hasLen = true) :
    load_json_file p (.content j) =
      .ok (some j, ["Loaded " ++ toString j.len ++ " records from " ++ p]) := by
  simp [load_json_file, h]

/-- C8 witness: the loader's result on a concrete parsed array. -/
theorem claim_C8_witness :
    load_json_file "users.json" (.content (.arr [])) =
      .ok (some (.arr []), ["Loaded 0 records from users.json"]) :=
  claim_C8 "users.json" (.arr []) rfl

/-- C9: the connection never enables foreign-key enforcement, so a run
whose order_items record references a non-existent order and product
completes silently with the row inserted; the same row is rejected by the
insert engine exactly when enforcement is on. -/
theorem claim_C9 :
    (∀ ex : Option DB, (create_database ex).fkEnforced = false) ∧
    (main c9Input none).err = none ∧
    ((main c9Input none).store.getTable .order_items).length = 1 ∧
    insertOne false emptyDB .order_items c9Row =
      .ok (emptyDB.setTable .order_items
        [[.int 1, .int 99, .int 99, .int 1, .int 5, .int 5]]) ∧
    insertOne true emptyDB .order_items c9Row =
      .error (.dbError "FOREIGN KEY constraint failed") := by
  exact ⟨fun ex => by cases ex <;> rfl, by decide, by decide, rfl, rfl⟩

/-- C10: a parsed value without a length (null, number, boolean) raises
an uncaught TypeError at the loader's length computation — neither of its
handlers catches it — and a run whose users.json holds such a value
aborts instead of skipping the entity. -/
theorem claim_C10 :
    (∀ (p : String) (j : Json), j.hasLen = false →
      load_json_file p (.content j) = .error .typeError) ∧
    (∀ (inp : Inputs) (ex : Option DB) (j : Json),
      inp.users = .content j → j.hasLen = false →
      (main inp ex).err = some .typeError ∧ (main inp ex).report = none) := by
  constructor
  · intro p j h
    simp [load_json_file, h]
  · intro inp ex j hu h
    have hstep : step .users ⟨emptyDB, emptyDB, false⟩ inp.users =
        .error (.typeError, ⟨emptyDB, emptyDB, false⟩) := by
      rw [hu]
      simp [step, load_json_file, h]
    rw [mainTry_users_error hstep ex]
    exact ⟨rfl, rfl⟩

/-- C10 witness: the TypeError abort at a concrete numeric file. -/
theorem claim_C10_witness :
    load_json_file "users.json" (.content (.int 5)) = .error .typeError ∧
    (main c10Input none).err = some .typeError ∧
    (main c10Input none).report = none :=
  ⟨claim_C10.1 "users.json" (.int 5) rfl,
   claim_C10.2 c10Input none (.int 5) rfl rfl⟩

theorem expectedDB_getTable (inp : Inputs) (t : TableId) :
    (expectedDB inp).getTable t = (fileRecords (inp.file t)).map (expectedRow t) := by
  cases t <;> rfl

/-- C1 (counterexample): the claim as stated is false. `c1BadInput` has
every file present, parsing as a JSON array whose records all carry the
required fields, yet the run aborts on the duplicated users primary key
and the users table ends with 0 rows instead of 2. -/
theorem claim_C1_counterexample :
    ¬ (claimPresentWithRequired c1BadInput = true → countsMatch c1BadInput = true) := by
  intro h
  have h1 : claimPresentWithRequired c1BadInput = true := by decide
  have h2 : countsMatch c1BadInput = false := by decide
  rw [h h1] at h2
  exact Bool.noConfusion h2

/-- C1 (amended): for input sets whose files are all present and parse as
JSON arrays of objects that are acceptable to their table — required
fields present, values bindable, NOT NULL columns non-null, integer
primary keys distinct within each file — the run completes without error
and each table's post-run row count equals the number of records in the
corresponding source file. -/
theorem claim_C1 (inp : Inputs) (h : wellFormedInputs inp = true) :
    (main inp none).err = none ∧ countsMatch inp = true := by
  have hok : ∀ t, fileOK t (inp.file t) = true := by
    intro t
    have ht := List.all_eq_true.mp h t (mem_tablesOrder t)
    cases hf : inp.file t with
    | missing => rw [hf] at ht; exact absurd ht (by simp)
    | malformed => rw [hf] at ht; exact absurd ht (by simp)
    | content j =>
        rw [hf] at ht
        cases j with
        | arr rs => simpa [fileOK] using ht
        | null => exact absurd ht (by simp)
        | bool b => exact absurd ht (by simp)
        | int n => exact absurd ht (by simp)
        | float q => exact absurd ht (by simp)
        | str s => exact absurd ht (by simp)
        | obj kvs => exact absurd ht (by simp)
  have hm := main_ok none hok
  constructor
  · rw [hm]
  · simp only [countsMatch, hm]
    simp [tablesOrder, expectedDB, DB.getTable, Inputs.file, List.length_map]

/-- C1 witness: a concrete well-formed input set satisfying the amended
claim. -/
theorem claim_C1_witness :
    (main c1GoodInput none).err = none ∧ countsMatch c1GoodInput = true :=
  claim_C1 c1GoodInput (by decide)

/-- C2: when an input sequence of records (objects) contains one lacking
a required field, the table loader fails with a KeyError leaving the
connection untouched — the row tuples are all built before any insert
executes — and a run whose users.json is such a sequence aborts with that
KeyError, rolled back, with no partial insert committed and no report. -/
theorem claim_C2 :
    (∀ (t : TableId) (conn : Conn) (rs : List Json),
      (∀ u ∈ rs, isObj u = true) →
      (∃ u ∈ rs, ∃ f ∈ requiredNames t, u.hasKey f = false) →
      ∃ k, insertFn t conn (.arr rs) = .error (.keyError k, conn)) ∧
    (∀ (inp : Inputs) (ex : Option DB) (rs : List Json),
      inp.users = .content (.arr rs) →
      (∀ u ∈ rs, isObj u = true) →
      (∃ u ∈ rs, ∃ f ∈ requiredNames .users, u.hasKey f = false) →
      ∃ k, (main inp ex).err = some (.keyError k) ∧
        (main inp ex).store = emptyDB ∧
        (main inp ex).report = none ∧
        (main inp ex).finalConn.pending = (main inp ex).finalConn.committed) := by
  constructor
  · intro t conn rs hobj hmiss
    rw [insertFn_eq]
    exact insertEntity_keyError hobj hmiss
  · intro inp ex rs hu hobj hmiss
    obtain ⟨k, hk⟩ :=
      @insertEntity_keyError .users ⟨emptyDB, emptyDB, false⟩ rs hobj hmiss
    have hne : rs ≠ [] := by
      obtain ⟨u, hu', _⟩ := hmiss
      intro hrs
      rw [hrs] at hu'
      cases hu'
    have htruthy : truthy (.arr rs) = true := by
      cases rs with
      | nil => exact absurd rfl hne
      | cons a l => simp [truthy]
    have hstep : step .users ⟨emptyDB, emptyDB, false⟩ inp.users =
        .error (.keyError k, ⟨emptyDB, emptyDB, false⟩) := by
      rw [hu]
      simp only [step, load_json_file, Json.hasLen, if_true, htruthy, insertFn_eq, hk]
    rw [mainTry_users_error hstep ex]
    exact ⟨k, rfl, rfl, rfl, rfl⟩

/-- C2 witness: the KeyError abort on a concrete user record lacking
`email`. -/
theorem claim_C2_witness :
    ∃ k, (main c2Input none).err = some (.keyError k) ∧
      (main c2Input none).store = emptyDB ∧
      (main c2Input none).report = none ∧
      (main c2Input none).finalConn.pending = (main c2Input none).finalConn.committed :=
  claim_C2.2 c2Input none [.obj [("id", .int 1), ("name", .str "a")]]
    rfl (by decide) (by decide)

/-- C3: when one entity's source file is missing or malformed and every
other file is handled cleanly, the source loader reports an error and
returns an absent result, the entity's table ends with count 0, and all
later load+insert steps and the verification still run to completion. -/
theorem claim_C3 (inp : Inputs) (ex : Option DB) (t : TableId)
    (hbad : inp.file t = .missing ∨ inp.file t = .malformed)
    (hrest : ∀ t', t' ≠ t → fileOK t' (inp.file t') = true) :
    (∃ msg, load_json_file (fileName t) (inp.file t) = .ok (none, [msg])) ∧
    (main inp ex).err = none ∧
    (main inp ex).report = some (tablesOrder.map (fun t' =>
      (tableName t', (fileRecords (inp.file t')).length))) ∧
    ((main inp ex).store.getTable t).length = 0 ∧
    (∀ t', ((main inp ex).store.getTable t').length =
      (fileRecords (inp.file t')).length) := by
  have hok : ∀ t', fileOK t' (inp.file t') = true := by
    intro t'
    by_cases h : t' = t
    · subst h
      rcases hbad with h | h <;> rw [h] <;> rfl
    · exact hrest t' h
  have hm := main_ok ex hok
  have hnil : fileRecords (inp.file t) = [] := by
    rcases hbad with h | h <;> rw [h] <;> rfl
  refine ⟨?_, ?_, ?_, ?_, ?_⟩
  · rcases hbad with h | h <;> rw [h] <;> exact ⟨_, rfl⟩
  · rw [hm]
  · rw [hm]
  · rw [hm]
    show ((expectedDB inp).getTable t).length = 0
    rw [expectedDB_getTable, List.length_map, hnil]
    rfl
  · intro t'
    rw [hm]
    show ((expectedDB inp).getTable t').length = (fileRecords (inp.file t')).length
    rw [expectedDB_getTable, List.length_map]

/-- C3 witness: payments.json missing, the other four files valid. -/
theorem claim_C3_witness :
    (∃ msg, load_json_file (fileName .payments) (c3Input.file .payments) =
      .ok (none, [msg])) ∧
    (main c3Input none).err = none ∧
    (main c3Input none).report = some (tablesOrder.map (fun t' =>
      (tableName t', (fileRecords (c3Input.file t')).length))) ∧
    ((main c3Input none).store.getTable .payments).length = 0 ∧
    (∀ t', ((main c3Input none).store.getTable t').length =
      (fileRecords (c3Input.file t')).length) :=
  claim_C3 c3Input none .payments (Or.inl rfl)
    (by intro t' ht'; cases t' <;> first | (exact absurd rfl ht') | rfl)

/-- C4: a record accepted by its table loader that omits an optional
field receives that field's documented default in the stored row: the
inserted row holds the bound default value at the field's column. -/
theorem claim_C4 (t : TableId) (conn : Conn) (u : Json)
    (hfk : conn.fkEnforced = false)
    (hempty : conn.pending.getTable t = [])
    (hrec : recordOK t u = true) :
    ∃ row, insertEntity t conn (.arr [u]) =
        .ok (Conn.commit { conn with pending := conn.pending.setTable t [row] }) ∧
      ∀ i k d, (fieldSpecs t).get? i = some (.opt k d) → u.hasKey k = false →
        ∃ v, bindVal d = .ok v ∧ row.get? i = some v := by
  refine ⟨expectedRow t u, ?_, ?_⟩
  · have hgood : goodRecords t [u] = true := by
      simp [goodRecords, allDiffInt, hrec]
    have hfresh : ∀ u' ∈ [u], hasId (conn.pending.getTable t) (recIdD u') = false := by
      intro u' _
      rw [hempty]
      rfl
    have hi := insertEntity_ok hfk (by simp) hgood hfresh
    rw [hi, hempty]
    rfl
  · intro i k d hspec hkey
    obtain ⟨kvs, hu, hreq, hrow⟩ := recordOK_components hrec
    obtain ⟨v0, rest, n, hb, hlen, hk2, hnn, hst, hid⟩ := rowOK_components hrow
    cases i with
    | zero =>
        have h0 : (fieldSpecs t).get? 0 = some (.req "id") := by
          cases t <;> rfl
        rw [h0] at hspec
        simp at hspec
    | succ i' =>
        subst hu
        have hl : lookupKey kvs k = none := by
          cases hl' : lookupKey kvs k with
          | none => rfl
          | some v =>
              simp [Json.hasKey, hl'] at hkey
        have hbuilt : (builtRow t (Json.obj kvs)).get? (i' + 1) = some d := by
          rw [builtRow, List.get?_map, hspec]
          simp [fieldValD, hl]
        obtain ⟨v, hv, hvs⟩ := bindAll_ok_get hb (i' + 1) d hbuilt
        refine ⟨v, hv, ?_⟩
        show (expectedRow t (Json.obj kvs)).get? (i' + 1) = some v
        rw [expectedRow, hst]
        simpa using hvs

/-- C4 witness: a product record omitting `stock` (and every other
optional field) is stored with `stock = 0` and empty-string text
defaults. -/
theorem claim_C4_witness :
    ∃ row, insertEntity .products ⟨emptyDB, emptyDB, false⟩ (.arr [c4Record]) =
        .ok (Conn.commit { (⟨emptyDB, emptyDB, false⟩ : Conn) with
          pending := emptyDB.setTable .products [row] }) ∧
      ∀ i k d, (fieldSpecs .products).get? i = some (.opt k d) →
        c4Record.hasKey k = false →
        ∃ v, bindVal d = .ok v ∧ row.get? i = some v :=
  claim_C4 .products ⟨emptyDB, emptyDB, false⟩ c4Record rfl rfl (by decide)

/-- C5: every table loader is a no-op on falsy (empty or absent) input,
returning the connection unchanged — no insert, no commit — and the
specification's end-to-end example yields exactly the documented counts
users:1, products:1, orders:0, order_items:0, payments:0. -/
theorem claim_C5 :
    (∀ (t : TableId) (conn : Conn) (d : Json),
      truthy d = false → insertFn t conn d = .ok conn) ∧
    main c5Input none =
      { store := ⟨[[.int 1, .text "A", .text "a@x.com", .text "", .text "", .text ""]],
                  [[.int 1, .text "Widget", .text "", .real (mkRat 999 100), .text "",
                    .int 0, .text "", .text ""]], [], [], []⟩,
        report := some [("users", 1), ("products", 1), ("orders", 0),
                        ("order_items", 0), ("payments", 0)],
        err := none,
        finalConn :=
          ⟨⟨[[.int 1, .text "A", .text "a@x.com", .text "", .text "", .text ""]],
            [[.int 1, .text "Widget", .text "", .real (mkRat 999 100), .text "",
              .int 0, .text "", .text ""]], [], [], []⟩,
           ⟨[[.int 1, .text "A", .text "a@x.com", .text "", .text "", .text ""]],
            [[.int 1, .text "Widget", .text "", .real (mkRat 999 100), .text "",
              .int 0, .text "", .text ""]], [], [], []⟩, false⟩,
        closed := true } := by
  constructor
  · intro t conn d h
    rw [insertFn_eq]
    simp [insertEntity, h]
  · decide

/-- C5 witness: the no-op at a concrete empty input. -/
theorem claim_C5_witness :
    insertFn .users ⟨emptyDB, emptyDB, false⟩ (.arr []) = .ok ⟨emptyDB, emptyDB, false⟩ :=
  claim_C5.1 .users ⟨emptyDB, emptyDB, false⟩ (.arr []) rfl

end Ingest
